import Mathlib

/-!
Verification of the checkpoint-adaptation and inference pipeline of the
Sheep-Weight backend (src/backend.py).

Modelling conventions:
* Python floats are modelled as rationals (ℚ); IEEE rounding is abstracted.
* A torch tensor is modelled by its flattened list of entries (`Tensor`);
  shape compatibility is modelled as equality of lengths.
* Python dicts are modelled as insertion-ordered association lists with
  distinct keys; `dictGet` is `d.get(k)` / `k in d`, `dictInsert` is
  `d[k] = v` (updating an existing key in place, appending a new key).
* The heterogeneous values stored in a checkpoint dict are modelled by the
  tagged union `CVal` (tensor, nested state-dict mapping, list of target
  names, opaque scaler object).
-/

namespace SheepWeight

abbrev Tensor := List ℚ

/-- A value stored in a checkpoint dictionary: a tensor, a nested
parameter mapping (state dict), a list of target names, or an opaque
fitted scaler object. -/
inductive CVal where
  | tensor (t : Tensor)
  | sd (m : List (String × Tensor))
  | names (ns : List String)
  | scalerObj (id : Nat)
deriving DecidableEq

/-- `d.get(k)` on a Python dict: the value at the first (unique) matching
key, `none` when absent. -/
def dictGet {α : Type} (d : List (String × α)) (k : String) : Option α :=
  match d with
  | [] => none
  | p :: rest => if p.1 = k then some p.2 else dictGet rest k

/-- `d[k] = v` on a Python dict: update an existing key in place,
append a fresh key at the end. -/
def dictInsert {α : Type} (d : List (String × α)) (k : String) (v : α) :
    List (String × α) :=
  match d with
  | [] => [(k, v)]
  | p :: rest => if p.1 = k then (k, v) :: rest else p :: dictInsert rest k v

/-- Python truthiness of a checkpoint value: containers are truthy iff
non-empty, other objects are truthy. -/
def truthyVal : CVal → Bool
  | .tensor t => !t.isEmpty
  | .sd m => !m.isEmpty
  | .names ns => !ns.isEmpty
  | .scalerObj _ => true

/-- Truthiness of `d.get(k)`: `None` is falsy. -/
def truthyOpt : Option CVal → Bool
  | none => false
  | some v => truthyVal v

/-- View a bare parameter mapping (name → tensor) as a checkpoint-valued
mapping, for the paths where the code treats it as a plain dict. -/
def promoteSD (m : List (String × Tensor)) : List (String × CVal) :=
  m.map fun p => (p.1, CVal.tensor p.2)

/-- src/backend.py line 72:
`state_dict = checkpoint.get('state_dict') or checkpoint.get('model_state_dict') or checkpoint`
followed by the use of the result as a mapping (its `.items()` are
iterated at line 79).  The `or` chain picks the first *truthy* operand.
Result `none` models the case where the chosen value is a truthy
non-mapping, on which `.items()` raises (caught by the outer handler). -/
def resolveStateDict (d : List (String × CVal)) :
    Option (List (String × CVal)) :=
  let chosen : CVal ⊕ List (String × CVal) :=
    match dictGet d ("state_dict") with
    | some v =>
      if truthyVal v then Sum.inl v
      else
        match dictGet d ("model_state_dict") with
        | some w => if truthyVal w then Sum.inl w else Sum.inr d
        | none => Sum.inr d
    | none =>
      match dictGet d ("model_state_dict") with
      | some w => if truthyVal w then Sum.inl w else Sum.inr d
      | none => Sum.inr d
  match chosen with
  | Sum.inl (CVal.sd m) => some (promoteSD m)
  | Sum.inl _ => none
  | Sum.inr whole => some whole

/-- A deserialized checkpoint artifact (src/backend.py lines 62–74):
either a dict container, or a module-like object whose `.state_dict()`
yields a bare parameter mapping. -/
inductive Ckpt where
  | dict (d : List (String × CVal))
  | module (m : List (String × Tensor))
deriving DecidableEq

/-- Lines 62–74: obtain the raw parameter mapping from the artifact. -/
def resolveSD : Ckpt → Option (List (String × CVal))
  | .dict d => resolveStateDict d
  | .module m => some (promoteSD m)

/-- Python `key.startswith(pat)` on strings (structural, over the
underlying character lists). -/
def pyStartsWith (pat s : String) : Bool :=
  pat.toList.isPrefixOf s.toList

/-- Python `key.replace("cnn.", "")` (src/backend.py line 82): remove
every non-overlapping occurrence of `cnn.`, scanning left to right. -/
def replChars : List Char → List Char
  | 'c' :: 'n' :: 'n' :: '.' :: rest => replChars rest
  | c :: rest => c :: replChars rest
  | [] => []

/-- `key.replace("cnn.", "")` on strings. -/
def removeCnn (k : String) : String := ⟨replChars k.toList⟩

/-- The per-key policy of the remapping loop (src/backend.py lines 79–86):
keys starting with `cnn.` are kept under `key.replace("cnn.", "")`; keys
starting with `tab_mlp` or `final_head` are dropped; all other keys are
kept unchanged. -/
def remapKey (k : String) : Option String :=
  if pyStartsWith ("cnn.") k then some (removeCnn k)
  else if !pyStartsWith ("tab_mlp") k && !pyStartsWith ("final_head") k then
    some k
  else none

/-- One iteration of the remapping loop of src/backend.py lines 79–86:
insert the entry under its remapped key, or drop it. -/
def remapStep {α : Type} (acc : List (String × α)) (kv : String × α) :
    List (String × α) :=
  match remapKey kv.1 with
  | some k => dictInsert acc k kv.2
  | none => acc

/-- src/backend.py lines 78–86: build `new_state_dict` by iterating the
source mapping in insertion order and inserting each kept entry under its
remapped key (a later entry overwrites an earlier one on collision). -/
def remapStateDict {α : Type} (m : List (String × α)) : List (String × α) :=
  m.foldl remapStep []

/-- src/backend.py lines 88–91: `model.fc = nn.Linear(model.fc.in_features,
num_outputs)`.  Replaces the final layer's parameters with freshly
initialized ones of output dimension `numOut`; the fresh random values are
abstracted as zeros (no claim observes them), the shapes are exact. -/
def resizeHead (arch : List (String × Tensor)) (inFeat numOut : Nat) :
    List (String × Tensor) :=
  arch.map fun p =>
    if p.1 = ("fc.weight") then (p.1, List.replicate (numOut * inFeat) 0)
    else if p.1 = ("fc.bias") then (p.1, List.replicate numOut 0)
    else p

/-- Modelled from the spec: `model.load_state_dict(new_state_dict,
strict=False)` (src/backend.py line 97) is torch library code not in this
repository.  Per the spec's §4.4, binding is non-strict: an architecture
parameter is overwritten exactly when the mapping holds a tensor of
matching shape under the same name; every unbound mapping entry is
skipped, and the skipped names (the logged warnings) are returned as the
second component.  `bindEntry` is the fate of one architecture parameter:
overwritten when the mapping holds a same-named tensor of matching shape,
untouched otherwise. -/
def bindEntry (sd : List (String × CVal)) (p : String × Tensor) :
    String × Tensor :=
  match dictGet sd p.1 with
  | some (CVal.tensor t) => if t.length = p.2.length then (p.1, t) else p
  | _ => p

/-- Modelled from the spec: a mapping entry is skipped (logged, not
bound) when its name is absent from the architecture, its value is not a
tensor, or its shape differs from the architecture parameter's. -/
def skippedEntry (arch : List (String × Tensor)) (q : String × CVal) :
    Bool :=
  match dictGet arch q.1, q.2 with
  | some t, CVal.tensor u => decide (u.length ≠ t.length)
  | _, _ => true

/-- Modelled from the spec: the non-strict binding applied to every
architecture parameter, together with the names of the skipped mapping
entries. -/
def load_state_dict_nonstrict (arch : List (String × Tensor))
    (sd : List (String × CVal)) : List (String × Tensor) × List String :=
  (arch.map (bindEntry sd), (sd.filter (skippedEntry arch)).map Prod.fst)

/-- src/backend.py lines 93–100: the binding call is wrapped in
`try/except`, so any error is logged and swallowed; the (possibly
partially) bound architecture is used regardless. -/
def bindWeights (arch : List (String × Tensor))
    (sd : List (String × CVal)) : List (String × Tensor) :=
  (load_state_dict_nonstrict arch sd).1

/-- The module-level mutable state of src/backend.py (lines 30–34):
`model`, `model_loaded`, `output_scaler`, `target_names`. -/
structure ServerState where
  model : Option (List (String × Tensor))
  model_loaded : Bool
  output_scaler : Option CVal
  target_names : List String
deriving DecidableEq

/-- The initial global state (src/backend.py lines 31–34). -/
def initialState : ServerState :=
  { model := none
    model_loaded := false
    output_scaler := none
    target_names := [("weight"), ("lean"), ("fat"), ("bone")] }

/-- The fixed reference architecture produced by
`models.resnet18(weights=None)` (line 59): its parameter list and the
`in_features` of its final linear layer.  Passed as a parameter since the
torchvision constant is outside this repository. -/
structure ResNetInit where
  arch : List (String × Tensor)
  fc_in_features : Nat
deriving DecidableEq

/-- The outcome of `os.path.exists` / `torch.load` (lines 50–56):
the file is missing, deserialization raises, or a checkpoint artifact is
produced. -/
inductive LoadSource where
  | missing
  | unreadable
  | ok (c : Ckpt)
deriving DecidableEq

/-- src/backend.py lines 47–111, `load_model()`: returns the new global
state and the boolean result.
* missing file (line 50): return `False`, globals untouched;
* `torch.load` raises (line 56): caught at line 107, return `False`,
  globals untouched (the `model = resnet18` assignment at line 59 comes
  after the raise);
* otherwise: replace `model` with a fresh architecture, extract scaler
  (`target_scaler` then `scaler`, by key membership) and `target_names`,
  resolve the raw state dict, remap its keys, resize the head to
  `len(target_names) if target_names else 4`, bind the weights, set
  `model_loaded = True` and return `True`.  When the resolved state dict
  is a truthy non-mapping, iterating `.items()` raises after the globals
  `model`, `output_scaler`, `target_names` were already reassigned; the
  outer handler returns `False` with those mutations kept. -/
def load_model (init : ResNetInit) (st : ServerState) (src : LoadSource) :
    ServerState × Bool :=
  match src with
  | .missing => (st, false)
  | .unreadable => (st, false)
  | .ok ckpt =>
    let scaler : Option CVal :=
      match ckpt with
      | .dict d =>
        match dictGet d ("target_scaler") with
        | some v => some v
        | none =>
          match dictGet d ("scaler") with
          | some v => some v
          | none => st.output_scaler
      | .module _ => st.output_scaler
    let tnames : List String :=
      match ckpt with
      | .dict d =>
        match dictGet d ("target_names") with
        | some (CVal.names ns) => ns
        | _ => st.target_names
      | .module _ => st.target_names
    match resolveSD ckpt with
    | none =>
      ({ st with
          model := some init.arch
          output_scaler := scaler
          target_names := tnames }, false)
    | some sd =>
      let newSd := remapStateDict sd
      let numOut := if tnames.isEmpty then 4 else tnames.length
      let arch := resizeHead init.arch init.fc_in_features numOut
      let bound := bindWeights arch newSd
      ({ model := some bound
         model_loaded := true
         output_scaler := scaler
         target_names := tnames }, true)

/-- Python `name.lower()` (ASCII names). -/
def pyLower (s : String) : String := ⟨s.toList.map Char.toLower⟩

/-- Python substring test `pat in s` on character lists. -/
def containsChars (pat : List Char) : List Char → Bool
  | [] => pat.isEmpty
  | c :: rest => pat.isPrefixOf (c :: rest) || containsChars pat rest

/-- Python substring test `pat in s` on strings. -/
def containsSub (pat s : String) : Bool :=
  containsChars pat.toList s.toList

/-- The four canonical metric buckets (src/backend.py lines 159–161). -/
inductive Bucket where
  | live_weight
  | lean_mass
  | fat_mass
  | carcass_weight
deriving DecidableEq

/-- The canonical-metrics record `results` (src/backend.py lines 159–161),
all fields defaulting to `0.0`. -/
@[ext]
structure Results where
  live_weight : ℚ
  lean_mass : ℚ
  fat_mass : ℚ
  carcass_weight : ℚ
deriving DecidableEq

/-- The initial `results` value: every bucket `0.0`. -/
def zeroResults : Results :=
  { live_weight := 0, lean_mass := 0, fat_mass := 0, carcass_weight := 0 }

/-- Field access of `Results` by bucket. -/
def bucketVal (r : Results) : Bucket → ℚ
  | .live_weight => r.live_weight
  | .lean_mass => r.lean_mass
  | .fat_mass => r.fat_mass
  | .carcass_weight => r.carcass_weight

/-- The body of the classification loop (src/backend.py lines 166–175):
lower-case the name and assign `val` to the first bucket whose pattern is
a substring, leaving `results` unchanged when no pattern matches. -/
def classifyStep (r : Results) (name : String) (val : ℚ) : Results :=
  let nc := pyLower name
  if containsSub ("weight_kg") nc then { r with live_weight := val }
  else if containsSub ("lean_kg") nc then { r with lean_mass := val }
  else if containsSub ("fat_kg") nc then { r with fat_mass := val }
  else if containsSub ("carcass") nc then { r with carcass_weight := val }
  else r

/-- The bucket a single name classifies into, if any (the if/elif chain of
lines 168–175 viewed as a partial classification function). -/
def classifyName (name : String) : Option Bucket :=
  let nc := pyLower name
  if containsSub ("weight_kg") nc then some .live_weight
  else if containsSub ("lean_kg") nc then some .lean_mass
  else if containsSub ("fat_kg") nc then some .fat_mass
  else if containsSub ("carcass") nc then some .carcass_weight
  else none

/-- src/backend.py lines 163–175: `for i, name in enumerate(target_names):
if i < len(predictions): val = max(0.0, float(predictions[i])); ...`,
written with an explicit running index. -/
def metricLoop (r : Results) (i : Nat) (names : List String)
    (preds : List ℚ) : Results :=
  match names with
  | [] => r
  | name :: rest =>
    metricLoop
      (if i < preds.length
       then classifyStep r name (max 0 (preds.getD i 0))
       else r)
      (i + 1) rest preds

/-- src/backend.py lines 159–177: the canonical-metrics record computed
from the target names and the (possibly rescaled) prediction vector. -/
def metricResults (names : List String) (preds : List ℚ) : Results :=
  metricLoop zeroResults 0 names preds

/-- src/backend.py lines 148–155: if a scaler is present, apply its
inverse transform; when that raises, log and fall back to the raw row;
with no scaler use the raw row directly.  The sklearn scaler is
abstracted as a function that either returns a transformed row or raises
(`Except.error` carrying the message); the batch dimension of one is
fixed, so the code's row `[0]` is the modelled row. -/
def rescalePredictions (scaler : Option (List ℚ → Except String (List ℚ)))
    (raw : List ℚ) : List ℚ :=
  match scaler with
  | some f =>
    match f raw with
    | .ok p => p
    | .error _ => raw
  | none => raw

/-- src/backend.py lines 141–177, `predict_metrics`, downstream of the
forward pass: rescale the raw output row, then classify it into the
canonical-metrics record. -/
def predict_metrics (scaler : Option (List ℚ → Except String (List ℚ)))
    (names : List String) (raw : List ℚ) : Results :=
  metricResults names (rescalePredictions scaler raw)

/-- src/backend.py lines 179–184, `determine_status`. -/
def determine_status (weight : ℚ) : String :=
  if weight < 40 then "Underweight"
  else if weight < 45 then "Low"
  else if weight < 55 then "Healthy"
  else if weight < 65 then "Good"
  else "Excellent"

/-- src/backend.py lines 225–232: the carcass composition percentages
`(lean_pct, fat_pct, other_pct)` computed in `predict_weight_endpoint`. -/
def deriveComposition (lean_mass fat_mass carcass_weight : ℚ) :
    ℚ × ℚ × ℚ :=
  if carcass_weight > 0 then
    let lean_pct := lean_mass / carcass_weight * 100
    let fat_pct := fat_mass / carcass_weight * 100
    let total_mass := lean_mass + fat_mass
    let other_pct :=
      if total_mass > carcass_weight then 0
      else 100 - (lean_pct + fat_pct)
    (lean_pct, fat_pct, other_pct)
  else (0, 0, 0)

/-- Specification-side helper: the value the classification loop leaves in
bucket `b` — the clamped prediction of the *last* name (at running index
`i` onwards) that classifies into `b` and has a prediction available. -/
def lastAssign (i : Nat) (names : List String) (preds : List ℚ)
    (b : Bucket) : Option ℚ :=
  match names with
  | [] => none
  | name :: rest =>
    match lastAssign (i + 1) rest preds b with
    | some v => some v
    | none =>
      if i < preds.length ∧ classifyName name = some b
      then some (max 0 (preds.getD i 0))
      else none

/-- Specification-side helper: left-biased choice on options. -/
def oOr {α : Type} : Option α → Option α → Option α
  | some v, _ => some v
  | none, o => o

/-- Specification-side helper: the value of the *last* entry of `m` whose
remapped key is `n` (later entries win on collision). -/
def lastMapped {α : Type} (m : List (String × α)) (n : String) : Option α :=
  match m with
  | [] => none
  | p :: rest =>
    match lastMapped rest n with
    | some v => some v
    | none => if remapKey p.1 = some n then some p.2 else none

/-! ## Helper lemmas -/

theorem bucketVal_classifyStep (r : Results) (name : String) (v : ℚ)
    (b : Bucket) :
    bucketVal (classifyStep r name v) b =
      if classifyName name = some b then v else bucketVal r b := by
  unfold classifyStep classifyName
  by_cases h1 : containsSub ("weight_kg") (pyLower name) = true
  · cases b <;> simp [h1, bucketVal]
  · by_cases h2 : containsSub ("lean_kg") (pyLower name) = true
    · cases b <;> simp [h1, h2, bucketVal]
    · by_cases h3 : containsSub ("fat_kg") (pyLower name) = true
      · cases b <;> simp [h1, h2, h3, bucketVal]
      · by_cases h4 : containsSub ("carcass") (pyLower name) = true
        · cases b <;> simp [h1, h2, h3, h4, bucketVal]
        · cases b <;> simp [h1, h2, h3, h4, bucketVal]

theorem metricLoop_bucket (names : List String) :
    ∀ (i : Nat) (r : Results) (preds : List ℚ) (b : Bucket),
      bucketVal (metricLoop r i names preds) b =
        (lastAssign i names preds b).getD (bucketVal r b) := by
  induction names with
  | nil => intro i r preds b; simp [metricLoop, lastAssign]
  | cons name rest ih =>
    intro i r preds b
    simp only [metricLoop, lastAssign]
    rw [ih]
    cases h : lastAssign (i + 1) rest preds b with
    | some v => simp
    | none =>
      simp only [Option.getD_none]
      by_cases hi : i < preds.length
      · rw [if_pos hi, bucketVal_classifyStep]
        by_cases hc : classifyName name = some b
        · simp [hi, hc]
        · simp [hi, hc]
      · simp [hi]

theorem dictGet_dictInsert {α : Type} (d : List (String × α)) (k : String)
    (v : α) (n : String) :
    dictGet (dictInsert d k v) n = if n = k then some v else dictGet d n := by
  induction d with
  | nil =>
    by_cases h : n = k
    · subst h; simp [dictInsert, dictGet]
    · simp [dictInsert, dictGet, h, show ¬ k = n from fun hh => h hh.symm]
  | cons p rest ih =>
    by_cases hp : p.1 = k
    · by_cases hn : n = k
      · subst hn; simp [dictInsert, dictGet, hp]
      · simp [dictInsert, dictGet, hp, hn,
          show ¬ k = n from fun hh => hn hh.symm,
          show ¬ p.1 = n from hp ▸ fun hh => hn hh.symm]
    · by_cases hpn : p.1 = n
      · have hnk : ¬ n = k := fun hh => hp (hpn.trans hh)
        simp [dictInsert, dictGet, hp, hpn, hnk]
      · simp [dictInsert, dictGet, hp, hpn, ih]

theorem dictGet_append {α : Type} (a b : List (String × α)) (k : String) :
    dictGet (a ++ b) k = oOr (dictGet a k) (dictGet b k) := by
  induction a with
  | nil => simp [dictGet, oOr]
  | cons p rest ih =>
    by_cases h : p.1 = k <;> simp [dictGet, h, ih, oOr]

theorem dictGet_remapFold {α : Type} (m : List (String × α)) :
    ∀ (acc : List (String × α)) (n : String),
      dictGet (m.foldl remapStep acc) n =
        oOr (lastMapped m n) (dictGet acc n) := by
  induction m with
  | nil => intro acc n; simp [lastMapped, oOr]
  | cons p rest ih =>
    intro acc n
    rw [List.foldl_cons, ih]
    cases h : lastMapped rest n with
    | some v => simp [lastMapped, h, oOr]
    | none =>
      simp only [lastMapped, h, oOr]
      cases hk : remapKey p.1 with
      | none => simp [remapStep, hk, oOr]
      | some k =>
        by_cases hkn : k = n
        · subst hkn
          simp [remapStep, hk, dictGet_dictInsert, oOr]
        · simp [remapStep, hk, dictGet_dictInsert, oOr,
            show ¬ some k = some n from by simpa using hkn,
            show ¬ n = k from fun hh => hkn hh.symm]

theorem dictGet_remapStateDict {α : Type} (m : List (String × α))
    (n : String) :
    dictGet (remapStateDict m) n = lastMapped m n := by
  rw [remapStateDict, dictGet_remapFold]
  cases lastMapped m n <;> simp [oOr, dictGet]

theorem dictInsert_of_get_none {α : Type} (d : List (String × α))
    (k : String) (v : α) (h : dictGet d k = none) :
    dictInsert d k v = d ++ [(k, v)] := by
  induction d with
  | nil => rfl
  | cons p rest ih =>
    by_cases hp : p.1 = k
    · simp [dictGet, hp] at h
    · rw [dictGet, if_neg hp] at h
      simp [dictInsert, hp, ih h]

theorem remapFold_canonical {α : Type} (m : List (String × α)) :
    ∀ acc : List (String × α),
      (m.map Prod.fst).Nodup →
      (∀ p ∈ m, remapKey p.1 = some p.1) →
      (∀ p ∈ m, dictGet acc p.1 = none) →
      m.foldl remapStep acc = acc ++ m := by
  induction m with
  | nil => intro acc _ _ _; simp
  | cons p rest ih =>
    intro acc hnd hcanon hdis
    rw [List.map_cons, List.nodup_cons] at hnd
    have hstep : remapStep acc p = acc ++ [p] := by
      rw [remapStep, hcanon p (by simp)]
      show dictInsert acc p.1 p.2 = acc ++ [p]
      rw [dictInsert_of_get_none _ _ _ (hdis p (by simp))]
    rw [List.foldl_cons, hstep, ih (acc ++ [p]) hnd.2
      (fun q hq => hcanon q (by simp [hq]))
      (fun q hq => ?_)]
    · simp
    · rw [dictGet_append, hdis q (by simp [hq])]
      have hne : ¬ p.1 = q.1 := by
        intro hh
        exact hnd.1 (hh ▸ List.mem_map_of_mem Prod.fst hq)
      simp [oOr, dictGet, hne]

theorem skippedEntry_absent (arch : List (String × Tensor)) (nm : String)
    (w : CVal) (h : dictGet arch nm = none) :
    skippedEntry arch (nm, w) = true := by
  unfold skippedEntry
  dsimp only []
  rw [h]

theorem skippedEntry_mismatch (arch : List (String × Tensor)) (nm : String)
    (t u : Tensor) (h : dictGet arch nm = some t)
    (hne : u.length ≠ t.length) :
    skippedEntry arch (nm, CVal.tensor u) = true := by
  unfold skippedEntry
  dsimp only []
  rw [h]
  exact decide_eq_true hne

theorem dictGet_mem {α : Type} (d : List (String × α)) (k : String) (v : α)
    (h : dictGet d k = some v) : (k, v) ∈ d := by
  induction d with
  | nil => simp [dictGet] at h
  | cons p rest ih =>
    by_cases hp : p.1 = k
    · subst hp
      rw [dictGet, if_pos rfl] at h
      obtain rfl : v = p.2 := (Option.some.inj h).symm
      exact List.mem_cons_self p rest
    · rw [dictGet, if_neg hp] at h
      exact List.mem_cons_of_mem p (ih h)

theorem bindEntry_fst (sd : List (String × CVal)) (q : String × Tensor) :
    (bindEntry sd q).1 = q.1 := by
  unfold bindEntry
  cases dictGet sd q.1 with
  | none => rfl
  | some v =>
    cases v with
    | tensor t => dsimp only []; split <;> rfl
    | sd m => rfl
    | names ns => rfl
    | scalerObj i => rfl

theorem bindWeights_fst (arch : List (String × Tensor))
    (sd : List (String × CVal)) :
    (bindWeights arch sd).map Prod.fst = arch.map Prod.fst := by
  induction arch with
  | nil => rfl
  | cons p rest ih =>
    simp only [bindWeights, load_state_dict_nonstrict, List.map_cons] at ih ⊢
    exact congrArg₂ List.cons (bindEntry_fst sd p) ih

theorem dictGet_bindWeights (arch : List (String × Tensor))
    (sd : List (String × CVal)) (n : String) :
    dictGet (bindWeights arch sd) n =
      match dictGet arch n with
      | none => none
      | some t =>
        match dictGet sd n with
        | some (CVal.tensor u) =>
          if u.length = t.length then some u else some t
        | _ => some t := by
  induction arch with
  | nil => rfl
  | cons p rest ih =>
    simp only [bindWeights, load_state_dict_nonstrict, List.map_cons] at ih ⊢
    simp only [dictGet, bindEntry_fst]
    by_cases hp : p.1 = n
    · simp only [if_pos hp]
      subst hp
      unfold bindEntry
      cases dictGet sd p.1 with
      | none => rfl
      | some v =>
        cases v with
        | tensor u => dsimp only []; split <;> rfl
        | sd m => rfl
        | names ns => rfl
        | scalerObj i => rfl
    · simp only [if_neg hp]
      exact ih

/-! ## Claim theorems -/

/-- C1 (amended): the Metric Classifier matches contiguous lowercase
substrings with first-match priority — a name containing `weight_kg` sets
live_weight; otherwise one containing `lean_kg` sets lean_mass; otherwise
`fat_kg` sets fat_mass; otherwise `carcass` sets carcass_weight; names
matching none are ignored.  Each bucket holds the clamped value of the
last eligible (index < length of predictions) name mapping to it, and a
bucket no eligible name maps to stays at its default `0.0`. -/
theorem metric_classifier_contiguous (names : List String) (preds : List ℚ)
    (b : Bucket) (name : String) :
    bucketVal (metricResults names preds) b =
      (lastAssign 0 names preds b).getD 0
    ∧ (containsSub ("weight_kg") (pyLower name) = true →
        classifyName name = some Bucket.live_weight)
    ∧ (containsSub ("weight_kg") (pyLower name) = false →
        containsSub ("lean_kg") (pyLower name) = true →
        classifyName name = some Bucket.lean_mass)
    ∧ (containsSub ("weight_kg") (pyLower name) = false →
        containsSub ("lean_kg") (pyLower name) = false →
        containsSub ("fat_kg") (pyLower name) = true →
        classifyName name = some Bucket.fat_mass)
    ∧ (containsSub ("weight_kg") (pyLower name) = false →
        containsSub ("lean_kg") (pyLower name) = false →
        containsSub ("fat_kg") (pyLower name) = false →
        containsSub ("carcass") (pyLower name) = true →
        classifyName name = some Bucket.carcass_weight)
    ∧ (containsSub ("weight_kg") (pyLower name) = false →
        containsSub ("lean_kg") (pyLower name) = false →
        containsSub ("fat_kg") (pyLower name) = false →
        containsSub ("carcass") (pyLower name) = false →
        classifyName name = none) := by
  refine ⟨?_, ?_, ?_, ?_, ?_, ?_⟩
  · rw [metricResults, metricLoop_bucket]
    have hz : bucketVal zeroResults b = 0 := by cases b <;> rfl
    rw [hz]
  · intro h1; simp [classifyName, h1]
  · intro h1 h2; simp [classifyName, h1, h2]
  · intro h1 h2 h3; simp [classifyName, h1, h2, h3]
  · intro h1 h2 h3 h4; simp [classifyName, h1, h2, h3, h4]
  · intro h1 h2 h3 h4; simp [classifyName, h1, h2, h3, h4]

/-- C1 counterexample: the name `weight in kg` contains both `weight` and
`kg` (the claim's criterion would set live_weight to the prediction 5),
but the code matches the contiguous substring `weight_kg`, so live_weight
stays 0. -/
theorem metric_classifier_separate_words_fail :
    containsSub ("weight") (pyLower ("weight in kg")) = true
    ∧ containsSub ("kg") (pyLower ("weight in kg")) = true
    ∧ (metricResults [("weight in kg")] [5]).live_weight = 0 := by decide

/-- C1 witness. -/
theorem metric_classifier_contiguous_witness :
    bucketVal (metricResults [("Weight_KG")] [5]) Bucket.live_weight
      = (lastAssign 0 [("Weight_KG")] [5] Bucket.live_weight).getD 0
    ∧ classifyName ("Weight_KG") = some Bucket.live_weight :=
  ⟨(metric_classifier_contiguous [("Weight_KG")] [5] Bucket.live_weight
      ("Weight_KG")).1,
   (metric_classifier_contiguous [("Weight_KG")] [5] Bucket.live_weight
      ("Weight_KG")).2.1 (by decide)⟩

/-- C2: composition percentages — for carcass_weight > 0,
lean_pct = lean/carcass×100 and fat_pct = fat/carcass×100, with
other_pct = 0 when lean+fat > carcass and 100 − (lean_pct+fat_pct)
otherwise; for carcass_weight ≤ 0 all three are 0 regardless of
lean_mass and fat_mass. -/
theorem composition_deriver_correct (l f c : ℚ) :
    (c > 0 →
      (deriveComposition l f c).1 = l / c * 100
      ∧ (deriveComposition l f c).2.1 = f / c * 100
      ∧ (l + f > c → (deriveComposition l f c).2.2 = 0)
      ∧ (¬ l + f > c →
          (deriveComposition l f c).2.2 = 100 - (l / c * 100 + f / c * 100)))
    ∧ (c ≤ 0 → deriveComposition l f c = (0, 0, 0)) := by
  unfold deriveComposition
  constructor
  · intro hc
    rw [if_pos hc]
    refine ⟨rfl, rfl, ?_, ?_⟩
    · intro h; simp [h]
    · intro h; simp [h]
  · intro hc
    rw [if_neg (by linarith)]

/-- C2 witness: the spec's normal case (20, 10, 40), overflow case
(30, 30, 50) and degenerate case (5, 5, 0). -/
theorem composition_deriver_correct_witness :
    (deriveComposition 20 10 40).1 = 20 / 40 * 100
    ∧ (deriveComposition 20 10 40).2.2
        = 100 - (20 / 40 * 100 + 10 / 40 * 100)
    ∧ (deriveComposition 30 30 50).2.2 = 0
    ∧ deriveComposition 5 5 0 = (0, 0, 0) :=
  ⟨((composition_deriver_correct 20 10 40).1 (by norm_num)).1,
   ((composition_deriver_correct 20 10 40).1 (by norm_num)).2.2.2
     (by norm_num),
   ((composition_deriver_correct 30 30 50).1 (by norm_num)).2.2.1
     (by norm_num),
   (composition_deriver_correct 5 5 0).2 (by norm_num)⟩

/-- C3: the status label is the five-way strict-less-than threshold
classification on live_weight, with each boundary value (40, 45, 55, 65)
belonging to the next-higher band. -/
theorem status_threshold_bands (w : ℚ) :
    (w < 40 → determine_status w = "Underweight")
    ∧ (40 ≤ w → w < 45 → determine_status w = "Low")
    ∧ (45 ≤ w → w < 55 → determine_status w = "Healthy")
    ∧ (55 ≤ w → w < 65 → determine_status w = "Good")
    ∧ (65 ≤ w → determine_status w = "Excellent") := by
  unfold determine_status
  refine ⟨?_, ?_, ?_, ?_, ?_⟩ <;> intros <;> split_ifs <;>
    first | rfl | linarith

/-- C3 witness: the spec's boundary vectors 39.99, 40, 54.99, 65. -/
theorem status_threshold_bands_witness :
    determine_status (3999 / 100) = "Underweight"
    ∧ determine_status 40 = "Low"
    ∧ determine_status (5499 / 100) = "Healthy"
    ∧ determine_status 65 = "Excellent" :=
  ⟨(status_threshold_bands (3999 / 100)).1 (by norm_num),
   (status_threshold_bands 40).2.1 (by norm_num) (by norm_num),
   (status_threshold_bands (5499 / 100)).2.2.1 (by norm_num) (by norm_num),
   (status_threshold_bands 65).2.2.2.2 (by norm_num)⟩

/-- C4 (amended): for every parameter name, the Key Remapper keeps a name
starting with `cnn.` under the name with *every* occurrence of `cnn.`
removed (not only the leading one); drops names starting with `tab_mlp`
or `final_head`; keeps all other names unchanged; and on a collision of
remapped names the later-processed source entry wins: the value stored
under `n` is the value of the last source entry whose remapped name
is `n`. -/
theorem key_remapper_policy (m : List (String × CVal)) (n k : String) :
    dictGet (remapStateDict m) n = lastMapped m n
    ∧ (pyStartsWith ("cnn.") k = true → remapKey k = some (removeCnn k))
    ∧ (pyStartsWith ("cnn.") k = false →
        (pyStartsWith ("tab_mlp") k = true
          ∨ pyStartsWith ("final_head") k = true) →
        remapKey k = none)
    ∧ (pyStartsWith ("cnn.") k = false → pyStartsWith ("tab_mlp") k = false →
        pyStartsWith ("final_head") k = false → remapKey k = some k) := by
  refine ⟨dictGet_remapStateDict m n, ?_, ?_, ?_⟩
  · intro h; simp [remapKey, h]
  · rintro h (h2 | h2) <;> simp [remapKey, h, h2]
  · intro h h2 h3; simp [remapKey, h, h2, h3]

/-- C4 counterexample: for `cnn.layer1.cnn.w`, stripping only the leading
prefix would keep the parameter as `layer1.cnn.w`, but the code removes
every occurrence of `cnn.` and stores it under `layer1.w`. -/
theorem key_remapper_interior_occurrence :
    pyStartsWith ("cnn.") ("cnn.layer1.cnn.w") = true
    ∧ dictGet (remapStateDict [(("cnn.layer1.cnn.w"), CVal.tensor [1])])
        ("layer1.cnn.w") = none
    ∧ dictGet (remapStateDict [(("cnn.layer1.cnn.w"), CVal.tensor [1])])
        ("layer1.w") = some (CVal.tensor [1]) := by decide

/-- C4 witness: two source entries collide on `conv1.weight`; the later
one (in insertion order) wins, and a `tab_mlp` name is dropped. -/
theorem key_remapper_policy_witness :
    dictGet (remapStateDict
        [(("cnn.conv1.weight"), CVal.tensor [1]),
         (("conv1.weight"), CVal.tensor [2])]) ("conv1.weight")
      = lastMapped
          [(("cnn.conv1.weight"), CVal.tensor [1]),
           (("conv1.weight"), CVal.tensor [2])] ("conv1.weight")
    ∧ remapKey ("tab_mlp.0.weight") = none :=
  ⟨(key_remapper_policy
      [(("cnn.conv1.weight"), CVal.tensor [1]),
       (("conv1.weight"), CVal.tensor [2])]
      ("conv1.weight") ("tab_mlp.0.weight")).1,
   (key_remapper_policy
      [(("cnn.conv1.weight"), CVal.tensor [1]),
       (("conv1.weight"), CVal.tensor [2])]
      ("conv1.weight") ("tab_mlp.0.weight")).2.2.1 (by decide)
      (Or.inl (by decide))⟩

/-- C5: weight binding is total (never surfaces an error: the result is a
full architecture with the same parameter names); it overwrites exactly
the parameters present in both the mapping and the architecture with
matching shape; architecture parameters absent from the mapping retain
their initialized values; shape-mismatched mapping entries leave the
architecture parameter at its initialized value *and* are recorded in
the skip log; mapping entries absent from the architecture change
nothing and are recorded in the skip log. -/
theorem weight_binder_nonstrict_safe (arch : List (String × Tensor))
    (sd : List (String × CVal)) (n : String) (t u : Tensor) :
    (bindWeights arch sd).map Prod.fst = arch.map Prod.fst
    ∧ (dictGet arch n = some t → dictGet sd n = none →
        dictGet (bindWeights arch sd) n = some t)
    ∧ (dictGet arch n = some t → dictGet sd n = some (CVal.tensor u) →
        u.length = t.length → dictGet (bindWeights arch sd) n = some u)
    ∧ (dictGet arch n = some t → dictGet sd n = some (CVal.tensor u) →
        u.length ≠ t.length →
        dictGet (bindWeights arch sd) n = some t
        ∧ n ∈ (load_state_dict_nonstrict arch sd).2)
    ∧ (dictGet arch n = none → dictGet (bindWeights arch sd) n = none)
    ∧ (∀ v : CVal, (n, v) ∈ sd → dictGet arch n = none →
        n ∈ (load_state_dict_nonstrict arch sd).2) := by
  refine ⟨bindWeights_fst arch sd, ?_, ?_, ?_, ?_, ?_⟩
  · intro h1 h2
    rw [dictGet_bindWeights, h1]
    show (match dictGet sd n with
      | some (CVal.tensor u) => if u.length = t.length then some u else some t
      | _ => some t) = some t
    rw [h2]
  · intro h1 h2 h3
    rw [dictGet_bindWeights, h1]
    show (match dictGet sd n with
      | some (CVal.tensor u) => if u.length = t.length then some u else some t
      | _ => some t) = some u
    rw [h2]
    show (if u.length = t.length then some u else some t) = some u
    rw [if_pos h3]
  · intro h1 h2 h3
    constructor
    · rw [dictGet_bindWeights, h1]
      show (match dictGet sd n with
        | some (CVal.tensor u) =>
          if u.length = t.length then some u else some t
        | _ => some t) = some t
      rw [h2]
      show (if u.length = t.length then some u else some t) = some t
      rw [if_neg h3]
    · exact List.mem_map.mpr
        ⟨(n, CVal.tensor u),
         List.mem_filter.mpr
           ⟨dictGet_mem sd n (CVal.tensor u) h2,
            skippedEntry_mismatch arch n t u h1 h3⟩, rfl⟩
  · intro h1
    rw [dictGet_bindWeights, h1]
  · intro v hv h1
    exact List.mem_map.mpr
      ⟨(n, v),
       List.mem_filter.mpr ⟨hv, skippedEntry_absent arch n v h1⟩, rfl⟩

/-- C5 witness: `a` binds (matching shape), `b` is shape-mismatched —
retained at its initialized value and logged as skipped — and `c` is
absent from the architecture and logged as skipped. -/
theorem weight_binder_nonstrict_safe_witness :
    dictGet (bindWeights [(("a"), ([1, 2] : Tensor)), (("b"), ([3] : Tensor))]
        [(("a"), CVal.tensor [9, 9]), (("b"), CVal.tensor [1, 2, 3]),
         (("c"), CVal.tensor [7])]) ("a") = some ([9, 9] : Tensor)
    ∧ dictGet (bindWeights [(("a"), ([1, 2] : Tensor)), (("b"), ([3] : Tensor))]
        [(("a"), CVal.tensor [9, 9]), (("b"), CVal.tensor [1, 2, 3]),
         (("c"), CVal.tensor [7])]) ("b") = some ([3] : Tensor)
    ∧ ("b") ∈ (load_state_dict_nonstrict
        [(("a"), ([1, 2] : Tensor)), (("b"), ([3] : Tensor))]
        [(("a"), CVal.tensor [9, 9]), (("b"), CVal.tensor [1, 2, 3]),
         (("c"), CVal.tensor [7])]).2
    ∧ ("c") ∈ (load_state_dict_nonstrict
        [(("a"), ([1, 2] : Tensor)), (("b"), ([3] : Tensor))]
        [(("a"), CVal.tensor [9, 9]), (("b"), CVal.tensor [1, 2, 3]),
         (("c"), CVal.tensor [7])]).2 :=
  ⟨(weight_binder_nonstrict_safe
      [(("a"), [1, 2]), (("b"), [3])]
      [(("a"), CVal.tensor [9, 9]), (("b"), CVal.tensor [1, 2, 3]),
       (("c"), CVal.tensor [7])] ("a") [1, 2] [9, 9]).2.2.1
      (by decide) (by decide) (by decide),
   ((weight_binder_nonstrict_safe
      [(("a"), [1, 2]), (("b"), [3])]
      [(("a"), CVal.tensor [9, 9]), (("b"), CVal.tensor [1, 2, 3]),
       (("c"), CVal.tensor [7])] ("b") [3] [1, 2, 3]).2.2.2.1
      (by decide) (by decide) (by decide)).1,
   ((weight_binder_nonstrict_safe
      [(("a"), [1, 2]), (("b"), [3])]
      [(("a"), CVal.tensor [9, 9]), (("b"), CVal.tensor [1, 2, 3]),
       (("c"), CVal.tensor [7])] ("b") [3] [1, 2, 3]).2.2.2.1
      (by decide) (by decide) (by decide)).2,
   (weight_binder_nonstrict_safe
      [(("a"), [1, 2]), (("b"), [3])]
      [(("a"), CVal.tensor [9, 9]), (("b"), CVal.tensor [1, 2, 3]),
       (("c"), CVal.tensor [7])] ("c") [] []).2.2.2.2.2
      (CVal.tensor [7]) (by decide) (by decide)⟩

/-- C6: when the recovered scaler's inverse transform raises on every
input, inference still produces the Report computed from the raw output
row (a total function — no failure is surfaced); with no scaler the raw
row is always used directly. -/
theorem rescale_fallback_total (f : List ℚ → Except String (List ℚ))
    (names : List String) (raw : List ℚ)
    (hf : ∀ x, ∃ e, f x = Except.error e) :
    predict_metrics (some f) names raw = predict_metrics none names raw
    ∧ rescalePredictions (some f) raw = raw
    ∧ rescalePredictions none raw = raw := by
  obtain ⟨e, he⟩ := hf raw
  refine ⟨?_, ?_, rfl⟩
  · unfold predict_metrics rescalePredictions
    show metricResults names
        (match f raw with
          | Except.ok p => p
          | Except.error _ => raw)
      = metricResults names raw
    rw [he]
  · unfold rescalePredictions
    show (match f raw with
      | Except.ok p => p
      | Except.error _ => raw) = raw
    rw [he]

/-- C6 witness. -/
theorem rescale_fallback_total_witness :
    predict_metrics (some fun _ => Except.error ("boom")) [("weight_kg")] [3]
      = predict_metrics none [("weight_kg")] [3] :=
  (rescale_fallback_total (fun _ => Except.error ("boom")) [("weight_kg")]
    [3] (fun _ => ⟨("boom"), rfl⟩)).1

/-- C7 (amended): when the checkpoint source does not exist or cannot be
deserialized, `load_model` returns failure without crashing and leaves the
*entire* global state unchanged — in particular Availability keeps its
previous value (it is not reset to false after an earlier successful
load). -/
theorem load_failure_no_crash (init : ResNetInit) (st : ServerState)
    (src : LoadSource)
    (h : src = LoadSource.missing ∨ src = LoadSource.unreadable) :
    load_model init st src = (st, false) := by
  rcases h with h | h <;> subst h <;> rfl

/-- C7 counterexample: after a successful load (Availability true), a
failed re-load over a missing file returns failure yet leaves
Availability true, contradicting the claim that every failed load leaves
Availability false. -/
theorem load_failure_keeps_availability :
    (load_model ⟨[], 0⟩ initialState (LoadSource.ok (Ckpt.module []))).2
      = true
    ∧ (load_model ⟨[], 0⟩
        ((load_model ⟨[], 0⟩ initialState
          (LoadSource.ok (Ckpt.module []))).1) LoadSource.missing).2 = false
    ∧ ((load_model ⟨[], 0⟩
        ((load_model ⟨[], 0⟩ initialState
          (LoadSource.ok (Ckpt.module []))).1)
        LoadSource.missing).1).model_loaded = true := by decide

/-- C7 witness. -/
theorem load_failure_no_crash_witness :
    load_model ⟨[], 0⟩ initialState LoadSource.missing
      = (initialState, false) :=
  load_failure_no_crash ⟨[], 0⟩ initialState LoadSource.missing (Or.inl rfl)

/-- C8 (amended): the loader probes `state_dict` then `model_state_dict`
in that order, using the first whose value is truthy (a non-empty
mapping), and falls through to treating the whole container as the
parameter mapping exactly when neither field holds a truthy value — in
particular a present-but-empty mapping also falls through; non-container
checkpoints yield their own parameter mapping directly. -/
theorem state_dict_probe_order (d : List (String × CVal))
    (m bare : List (String × Tensor)) :
    (dictGet d ("state_dict") = some (CVal.sd m) → m ≠ [] →
      resolveStateDict d = some (promoteSD m))
    ∧ (truthyOpt (dictGet d ("state_dict")) = false →
        dictGet d ("model_state_dict") = some (CVal.sd m) → m ≠ [] →
        resolveStateDict d = some (promoteSD m))
    ∧ (truthyOpt (dictGet d ("state_dict")) = false →
        truthyOpt (dictGet d ("model_state_dict")) = false →
        resolveStateDict d = some d)
    ∧ resolveSD (Ckpt.module bare) = some (promoteSD bare) := by
  refine ⟨?_, ?_, ?_, rfl⟩
  · intro hs hm
    have ht : truthyVal (CVal.sd m) = true := by
      cases m
      · exact absurd rfl hm
      · rfl
    unfold resolveStateDict
    simp [hs, ht]
  · intro h1 hs hm
    have ht : truthyVal (CVal.sd m) = true := by
      cases m
      · exact absurd rfl hm
      · rfl
    unfold resolveStateDict
    cases hsd : dictGet d ("state_dict") with
    | none => simp [hsd, hs, ht]
    | some v =>
      have hv : truthyVal v = false := by simpa [truthyOpt, hsd] using h1
      simp [hsd, hs, ht, hv]
  · intro h1 h2
    unfold resolveStateDict
    cases hsd : dictGet d ("state_dict") with
    | none =>
      cases hmd : dictGet d ("model_state_dict") with
      | none => simp [hsd, hmd]
      | some w =>
        have hw : truthyVal w = false := by simpa [truthyOpt, hmd] using h2
        simp [hsd, hmd, hw]
    | some v =>
      have hv : truthyVal v = false := by simpa [truthyOpt, hsd] using h1
      cases hmd : dictGet d ("model_state_dict") with
      | none => simp [hsd, hmd, hv]
      | some w =>
        have hw : truthyVal w = false := by simpa [truthyOpt, hmd] using h2
        simp [hsd, hmd, hv, hw]

/-- C8 counterexample: a container whose `state_dict` field is present
but holds an empty mapping — the field name matches, yet the code falls
through to the whole container (which still holds the `state_dict`
entry), not to the field's (empty) value. -/
theorem state_dict_empty_field_falls_through :
    (dictGet [(("state_dict"), CVal.sd [])] ("state_dict")).isSome = true
    ∧ resolveStateDict [(("state_dict"), CVal.sd [])]
        = some [(("state_dict"), CVal.sd [])]
    ∧ some [(("state_dict"), CVal.sd [])]
        ≠ some (promoteSD ([] : List (String × Tensor))) := by decide

/-- C8 witness. -/
theorem state_dict_probe_order_witness :
    resolveStateDict [(("state_dict"), CVal.sd [(("w"), [1])])]
      = some (promoteSD [(("w"), [1])]) :=
  (state_dict_probe_order [(("state_dict"), CVal.sd [(("w"), [1])])]
    [(("w"), [1])] []).1 (by decide) (by decide)

/-- C9 (amended): applying the remapper to a mapping whose names are
already canonical (no `cnn.`, `tab_mlp` or `final_head` prefix) returns
the mapping unchanged; however remapping the *output* of the remapper is
not always a no-op, because stripping `cnn.` can expose a dropped
prefix. -/
theorem remap_canonical_noop (m : List (String × CVal))
    (hnd : (m.map Prod.fst).Nodup)
    (hc : ∀ p ∈ m, pyStartsWith ("cnn.") p.1 = false
        ∧ pyStartsWith ("tab_mlp") p.1 = false
        ∧ pyStartsWith ("final_head") p.1 = false) :
    remapStateDict m = m := by
  have hcanon : ∀ p ∈ m, remapKey p.1 = some p.1 := by
    intro p hp
    obtain ⟨h1, h2, h3⟩ := hc p hp
    simp [remapKey, h1, h2, h3]
  have hdis : ∀ p ∈ m, dictGet ([] : List (String × CVal)) p.1 = none :=
    fun p _ => rfl
  rw [remapStateDict, remapFold_canonical m [] hnd hcanon hdis,
    List.nil_append]

/-- C9 counterexample: remapping `cnn.tab_mlp.x` keeps it as `tab_mlp.x`,
and a second application of the remapper drops it — so remapping the
output of the remapper is not a no-op. -/
theorem remap_not_idempotent :
    remapStateDict (remapStateDict [(("cnn.tab_mlp.x"), CVal.tensor [1])])
      ≠ remapStateDict [(("cnn.tab_mlp.x"), CVal.tensor [1])] := by decide

/-- C9 witness. -/
theorem remap_canonical_noop_witness :
    remapStateDict
        [(("conv1.weight"), CVal.tensor [1]), (("fc.bias"), CVal.tensor [2])]
      = [(("conv1.weight"), CVal.tensor [1]), (("fc.bias"), CVal.tensor [2])] :=
  remap_canonical_noop
    [(("conv1.weight"), CVal.tensor [1]), (("fc.bias"), CVal.tensor [2])]
    (by decide) (by decide)

/-- C10: with the default target vector `["weight","lean","fat","bone"]`
(kept whenever the checkpoint carries no `target_names` field), the
Metric Classifier fills no bucket: all four canonical metrics are 0 for
every prediction vector. -/
theorem default_targets_fill_no_bucket (preds : List ℚ) (init : ResNetInit)
    (st : ServerState) (d : List (String × CVal)) :
    metricResults [("weight"), ("lean"), ("fat"), ("bone")] preds
      = zeroResults
    ∧ (dictGet d ("target_names") = none →
        ((load_model init st (LoadSource.ok (Ckpt.dict d))).1).target_names
          = st.target_names) := by
  constructor
  · have key : ∀ b,
        bucketVal (metricResults
          [("weight"), ("lean"), ("fat"), ("bone")] preds) b
          = bucketVal zeroResults b := by
      intro b
      rw [metricResults, metricLoop_bucket]
      have h1 : classifyName ("weight") = none := by decide
      have h2 : classifyName ("lean") = none := by decide
      have h3 : classifyName ("fat") = none := by decide
      have h4 : classifyName ("bone") = none := by decide
      simp [lastAssign, h1, h2, h3, h4]
    exact Results.ext (key .live_weight) (key .lean_mass) (key .fat_mass)
      (key .carcass_weight)
  · intro h
    unfold load_model
    cases hr : resolveSD (Ckpt.dict d) with
    | none => simp [hr, h]
    | some sd => simp [hr, h]

/-- C10 witness. -/
theorem default_targets_fill_no_bucket_witness :
    metricResults [("weight"), ("lean"), ("fat"), ("bone")] [10, 20, 30, 40]
      = zeroResults
    ∧ ((load_model ⟨[], 0⟩ initialState
        (LoadSource.ok (Ckpt.dict []))).1).target_names
        = initialState.target_names :=
  ⟨(default_targets_fill_no_bucket [10, 20, 30, 40] ⟨[], 0⟩ initialState
      []).1,
   (default_targets_fill_no_bucket [10, 20, 30, 40] ⟨[], 0⟩ initialState
      []).2 (by decide)⟩

end SheepWeight
